import Mathlib

/-!
# Verification of the BlogTube issue-orchestration core

This file embeds, as executable Lean definitions, the issue classifier
(`automation/claude-code-integration.js` and `automation/orchestrate-issue.js`)
and the agent coordination state machine (`automation/coordination.js`,
class `AgentCoordinator`) of the BlogTube repository, and proves or refutes
the testable properties stated in the specification.

Modelling conventions:
* JavaScript strings are modelled by `String`; keyword tests use
  `String.prototype.includes`, modelled by contiguous-substring search over
  `List Char`; `toLowerCase` is modelled by `Char.toLower` (all keywords are
  ASCII).
* JS objects used as maps (`activeIssues`, `resourceLocks`,
  `agentCommunication`, `agentProgress`) are modelled as association lists
  with replace-or-append insertion, matching JS property update/add order.
* Timestamps (`queueTime`, `startTime`, `endTime`, `lastUpdate`, message
  `timestamp`) carry no information used by any control decision and are
  omitted from the records.
* Every coordinator method is load → mutate-in-memory → save on a single
  persisted JSON document.  A method is therefore a pure function from the
  persisted state to the persisted state it leaves behind.  Where the source
  calls a helper that itself loads and saves (and the caller's later save
  overwrites that write), the model keeps the helper call in a dead `let` so
  the overwrite is visible, and the final state is the one the last save wrote.
-/

/-- `startsList needle hay` is true when `needle` is an initial segment of
`hay` (character-wise). Helper for the JS `String.prototype.includes` model. -/
def startsList : List Char → List Char → Bool
  | [], _ => true
  | _ :: _, [] => false
  | a :: as, b :: bs => a == b && startsList as bs

/-- `subOccurs needle hay`: `needle` occurs as a contiguous substring of
`hay`.  This is the semantics of JS `hay.includes(needle)`. -/
def subOccurs (needle : List Char) : List Char → Bool
  | [] => startsList needle []
  | hay@(_ :: t) => startsList needle hay || subOccurs needle t

/-- Lowercase a string into its character list, modelling
`s.toLowerCase()` on ASCII data. -/
def lowerL (s : String) : List Char := s.toList.map Char.toLower

/-- `hasKw t kw`: the (already lowercased) text `t` contains the keyword
`kw`, i.e. JS `t.includes(kw)`. -/
def hasKw (t : List Char) (kw : String) : Bool := subOccurs kw.toList t

/-! ## Issue classifier

Two implementations exist in the source:
`ClaudeCodeIntegration.analyzeIssue` (claude-code-integration.js, lines
729-815) and `IssueOrchestrator.analyzeIssue` (orchestrate-issue.js, lines
29-166).  The first four type rules, the simple-complexity rule and the
low-risk rule are textually identical in both files, so those conditions are
shared definitions below; every other condition is defined per
implementation. -/

/-- The result record of `analyzeIssue` in both implementations. -/
structure Analysis where
  type : String
  complexity : String
  risk : String
  agents : List String
  autoImplement : Bool
deriving DecidableEq

/-- Shared type rule 1 (both sources): label `bug`, or title containing
`fix` or `error`. -/
def typeBugCond (t : List Char) (ls : List (List Char)) : Bool :=
  ls.contains ("bug".toList) || hasKw t ("fix") || hasKw t ("error")

/-- Shared type rule 2: label `enhancement`, or title containing `improve`
or `optimize`. -/
def typeEnhCond (t : List Char) (ls : List (List Char)) : Bool :=
  ls.contains ("enhancement".toList) || hasKw t ("improve") || hasKw t ("optimize")

/-- Shared type rule 3: label `feature`, or title containing `add` or
`implement`. -/
def typeFeatCond (t : List Char) (ls : List (List Char)) : Bool :=
  ls.contains ("feature".toList) || hasKw t ("add") || hasKw t ("implement")

/-- Shared type rule 4: label `documentation`, or title containing `doc` or
`readme`. -/
def typeDocCond (t : List Char) (ls : List (List Char)) : Bool :=
  ls.contains ("documentation".toList) || hasKw t ("doc") || hasKw t ("readme")

/-- `classifyIssueType` of claude-code-integration.js: the four shared rules
then the default `feature`.  (Its `body` parameter is unused in the source.) -/
def classifyIssueTypeCCI (t : List Char) (ls : List (List Char)) : String :=
  if typeBugCond t ls then "bug"
  else if typeEnhCond t ls then "enhancement"
  else if typeFeatCond t ls then "feature"
  else if typeDocCond t ls then "documentation"
  else "feature"

/-- `classifyIssueType` of orchestrate-issue.js: the four shared rules, then
two extra rules (`performance`, `security`), then the default `feature`. -/
def classifyIssueTypeOrch (t : List Char) (ls : List (List Char)) : String :=
  if typeBugCond t ls then "bug"
  else if typeEnhCond t ls then "enhancement"
  else if typeFeatCond t ls then "feature"
  else if typeDocCond t ls then "documentation"
  else if hasKw t ("performance") || hasKw t ("slow") || hasKw t ("optimize") then "performance"
  else if hasKw t ("security") || hasKw t ("vulnerability") then "security"
  else "feature"

/-- The simple-complexity keyword list, identical in both sources. -/
def simpleKeywords : List String :=
  ["typo", "color", "text", "button", "style", "css", "readme"]

/-- Shared simple-complexity test: some simple keyword occurs in title or
body. -/
def simpleComplexCond (t b : List Char) : Bool :=
  simpleKeywords.any (fun k => hasKw t k || hasKw b k)

/-- Complex-complexity keywords of claude-code-integration.js. -/
def complexKeywordsCCI : List String :=
  ["architecture", "refactor", "migration", "authentication", "database"]

/-- Complex-complexity keywords of orchestrate-issue.js (adds `api`). -/
def complexKeywordsOrch : List String :=
  ["architecture", "refactor", "migration", "authentication", "database", "api"]

/-- `assessComplexity` of claude-code-integration.js. -/
def assessComplexityCCI (t b : List Char) : String :=
  if simpleComplexCond t b then "simple"
  else if complexKeywordsCCI.any (fun k => hasKw t k || hasKw b k) then "complex"
  else "moderate"

/-- `assessComplexity` of orchestrate-issue.js. -/
def assessComplexityOrch (t b : List Char) : String :=
  if simpleComplexCond t b then "simple"
  else if complexKeywordsOrch.any (fun k => hasKw t k || hasKw b k) then "complex"
  else "moderate"

/-- High-risk keywords of claude-code-integration.js. -/
def highRiskKeywordsCCI : List String :=
  ["breaking", "migration", "security", "authentication", "database"]

/-- High-risk keywords of orchestrate-issue.js (adds `payment`). -/
def highRiskKeywordsOrch : List String :=
  ["breaking", "migration", "security", "authentication", "database", "payment"]

/-- The low-risk keyword list, identical in both sources. -/
def lowRiskKeywords : List String :=
  ["documentation", "readme", "typo", "color", "css", "style"]

/-- Shared low-risk test. -/
def lowRiskCond (t b : List Char) : Bool :=
  lowRiskKeywords.any (fun k => hasKw t k || hasKw b k)

/-- `assessRisk` of claude-code-integration.js. -/
def assessRiskCCI (t b : List Char) : String :=
  if highRiskKeywordsCCI.any (fun k => hasKw t k || hasKw b k) then "high"
  else if lowRiskCond t b then "low"
  else "medium"

/-- `assessRisk` of orchestrate-issue.js. -/
def assessRiskOrch (t b : List Char) : String :=
  if highRiskKeywordsOrch.any (fun k => hasKw t k || hasKw b k) then "high"
  else if lowRiskCond t b then "low"
  else "medium"

/-- `determineRequiredAgents` of claude-code-integration.js: five
independent tests on the title only; defaults to `frontend`. -/
def determineRequiredAgentsCCI (t : List Char) : List String :=
  let agents :=
    (if hasKw t ("ui") || hasKw t ("component") || hasKw t ("frontend") then ["frontend"] else [])
    ++ (if hasKw t ("api") || hasKw t ("backend") || hasKw t ("server") then ["backend"] else [])
    ++ (if hasKw t ("database") || hasKw t ("schema") || hasKw t ("model") then ["database"] else [])
    ++ (if hasKw t ("deploy") || hasKw t ("ci") || hasKw t ("performance") then ["devops"] else [])
    ++ (if hasKw t ("doc") || hasKw t ("readme") || hasKw t ("guide") then ["documentation"] else [])
  if agents.isEmpty then ["frontend"] else agents

/-- `determineRequiredAgents` of orchestrate-issue.js: five tests on title
and body; defaults to `frontend`. -/
def determineRequiredAgentsOrch (t b : List Char) : List String :=
  let agents :=
    (if hasKw t ("ui") || hasKw t ("component") || hasKw t ("page") || hasKw t ("frontend")
        || hasKw b ("react") || hasKw b ("next.js") then ["frontend"] else [])
    ++ (if hasKw t ("api") || hasKw t ("backend") || hasKw t ("server") || hasKw t ("endpoint")
        || hasKw b ("express") || hasKw b ("route") then ["backend"] else [])
    ++ (if hasKw t ("database") || hasKw t ("schema") || hasKw t ("model") || hasKw t ("mongo")
        || hasKw b ("collection") || hasKw b ("query") then ["database"] else [])
    ++ (if hasKw t ("deploy") || hasKw t ("ci") || hasKw t ("build") || hasKw t ("performance")
        || hasKw b ("docker") || hasKw b ("github actions") then ["devops"] else [])
    ++ (if hasKw t ("doc") || hasKw t ("readme") || hasKw t ("guide") || hasKw t ("documentation")
        || hasKw b ("tutorial") then ["documentation"] else [])
  if agents.isEmpty then ["frontend"] else agents

/-- `ClaudeCodeIntegration.analyzeIssue`: lowercases title, body and label
names once and combines the four sub-classifiers; `autoImplement` is
`(simple ∧ low) ∨ (moderate ∧ low)`. -/
def analyzeIssueCCI (title body : String) (labels : List String) : Analysis :=
  let t := lowerL title
  let b := lowerL body
  let ls := labels.map lowerL
  let cx := assessComplexityCCI t b
  let rk := assessRiskCCI t b
  { type := classifyIssueTypeCCI t ls
    complexity := cx
    risk := rk
    agents := determineRequiredAgentsCCI t
    autoImplement := (cx == "simple" && rk == "low") || (cx == "moderate" && rk == "low") }

/-- `IssueOrchestrator.analyzeIssue`: each sub-classifier lowercases the
same fields itself in the source; the model lowercases once, which is
equivalent. -/
def analyzeIssueOrch (title body : String) (labels : List String) : Analysis :=
  let t := lowerL title
  let b := lowerL body
  let ls := labels.map lowerL
  let cx := assessComplexityOrch t b
  let rk := assessRiskOrch t b
  { type := classifyIssueTypeOrch t ls
    complexity := cx
    risk := rk
    agents := determineRequiredAgentsOrch t b
    autoImplement := (cx == "simple" && rk == "low") || (cx == "moderate" && rk == "low") }

/-- Claim C7: the issue analysis is a pure function of (title, body,
labels) — two calls on the same inputs agree — and on the two concrete
examples of the spec it yields (bug, simple, low, autoImplement) and
(feature, complex, high, no autoImplement) respectively. -/
theorem claim_C7_classifier_deterministic :
    (∀ (title body : String) (labels : List String),
      analyzeIssueCCI title body labels = analyzeIssueCCI title body labels) ∧
    ((analyzeIssueCCI ("Fix button color in dashboard") ("") (["bug"])).type = "bug" ∧
     (analyzeIssueCCI ("Fix button color in dashboard") ("") (["bug"])).complexity = "simple" ∧
     (analyzeIssueCCI ("Fix button color in dashboard") ("") (["bug"])).risk = "low" ∧
     (analyzeIssueCCI ("Fix button color in dashboard") ("") (["bug"])).autoImplement = true) ∧
    ((analyzeIssueCCI ("Implement user authentication system") ("Add OAuth") (["feature"])).type = "feature" ∧
     (analyzeIssueCCI ("Implement user authentication system") ("Add OAuth") (["feature"])).complexity = "complex" ∧
     (analyzeIssueCCI ("Implement user authentication system") ("Add OAuth") (["feature"])).risk = "high" ∧
     (analyzeIssueCCI ("Implement user authentication system") ("Add OAuth") (["feature"])).autoImplement = false) :=
  ⟨fun _ _ _ => rfl, by decide, by decide⟩

/-! ## C8: comparing the two classifier implementations -/

/-- Type classification agrees when the title avoids the keywords that only
orchestrate-issue.js tests (`performance`, `slow`, `security`,
`vulnerability`); its `optimize` test is unreachable because the shared
enhancement rule already catches `optimize`. -/
theorem classifyIssueType_agree (t : List Char) (ls : List (List Char))
    (hp : hasKw t ("performance") = false) (hs : hasKw t ("slow") = false)
    (hsec : hasKw t ("security") = false) (hv : hasKw t ("vulnerability") = false) :
    classifyIssueTypeOrch t ls = classifyIssueTypeCCI t ls := by
  unfold classifyIssueTypeOrch classifyIssueTypeCCI
  cases h2 : typeEnhCond t ls with
  | true => simp [h2]
  | false =>
    have hopt : hasKw t ("optimize") = false := by
      revert h2; unfold typeEnhCond
      cases hasKw t ("optimize") <;> simp
    simp [h2, hp, hs, hsec, hv, hopt]

/-- Complexity assessment agrees when `api` (the one extra complex keyword
of orchestrate-issue.js) occurs in neither title nor body. -/
theorem assessComplexity_agree (t b : List Char)
    (h1 : hasKw t ("api") = false) (h2 : hasKw b ("api") = false) :
    assessComplexityOrch t b = assessComplexityCCI t b := by
  unfold assessComplexityOrch assessComplexityCCI complexKeywordsOrch complexKeywordsCCI
  simp [h1, h2]

/-- Risk assessment agrees when `payment` (the one extra high-risk keyword
of orchestrate-issue.js) occurs in neither title nor body. -/
theorem assessRisk_agree (t b : List Char)
    (h1 : hasKw t ("payment") = false) (h2 : hasKw b ("payment") = false) :
    assessRiskOrch t b = assessRiskCCI t b := by
  unfold assessRiskOrch assessRiskCCI highRiskKeywordsOrch highRiskKeywordsCCI
  simp [h1, h2]

/-- Agent selection agrees when the extra orchestrate-issue.js keywords are
absent from the relevant field. -/
theorem determineRequiredAgents_agree (t b : List Char)
    (hpage : hasKw t ("page") = false) (hreact : hasKw b ("react") = false)
    (hnext : hasKw b ("next.js") = false) (hend : hasKw t ("endpoint") = false)
    (hexp : hasKw b ("express") = false) (hroute : hasKw b ("route") = false)
    (hmongo : hasKw t ("mongo") = false) (hcoll : hasKw b ("collection") = false)
    (hquery : hasKw b ("query") = false) (hbuild : hasKw t ("build") = false)
    (hdocker : hasKw b ("docker") = false) (hgha : hasKw b ("github actions") = false)
    (hdocu : hasKw t ("documentation") = false) (htut : hasKw b ("tutorial") = false) :
    determineRequiredAgentsOrch t b = determineRequiredAgentsCCI t := by
  unfold determineRequiredAgentsOrch determineRequiredAgentsCCI
  simp [hpage, hreact, hnext, hend, hexp, hroute, hmongo, hcoll, hquery, hbuild,
    hdocker, hgha, hdocu, htut]

/-- Claim C8 (corrected): the claim that the two `analyzeIssue`
implementations agree on all five outputs for every input is false (see the
counterexample); they do agree whenever the lowercased title and body avoid
every keyword tested by only one of the two implementations. -/
theorem claim_C8_analyzers_agree_amended (title body : String) (labels : List String)
    (hp : hasKw (lowerL title) ("performance") = false)
    (hs : hasKw (lowerL title) ("slow") = false)
    (hsec : hasKw (lowerL title) ("security") = false)
    (hv : hasKw (lowerL title) ("vulnerability") = false)
    (hapiT : hasKw (lowerL title) ("api") = false)
    (hapiB : hasKw (lowerL body) ("api") = false)
    (hpayT : hasKw (lowerL title) ("payment") = false)
    (hpayB : hasKw (lowerL body) ("payment") = false)
    (hpage : hasKw (lowerL title) ("page") = false)
    (hreact : hasKw (lowerL body) ("react") = false)
    (hnext : hasKw (lowerL body) ("next.js") = false)
    (hend : hasKw (lowerL title) ("endpoint") = false)
    (hexp : hasKw (lowerL body) ("express") = false)
    (hroute : hasKw (lowerL body) ("route") = false)
    (hmongo : hasKw (lowerL title) ("mongo") = false)
    (hcoll : hasKw (lowerL body) ("collection") = false)
    (hquery : hasKw (lowerL body) ("query") = false)
    (hbuild : hasKw (lowerL title) ("build") = false)
    (hdocker : hasKw (lowerL body) ("docker") = false)
    (hgha : hasKw (lowerL body) ("github actions") = false)
    (hdocu : hasKw (lowerL title) ("documentation") = false)
    (htut : hasKw (lowerL body) ("tutorial") = false) :
    analyzeIssueOrch title body labels = analyzeIssueCCI title body labels := by
  have ht := classifyIssueType_agree (lowerL title) (labels.map lowerL) hp hs hsec hv
  have hc := assessComplexity_agree (lowerL title) (lowerL body) hapiT hapiB
  have hr := assessRisk_agree (lowerL title) (lowerL body) hpayT hpayB
  have ha := determineRequiredAgents_agree (lowerL title) (lowerL body) hpage hreact
    hnext hend hexp hroute hmongo hcoll hquery hbuild hdocker hgha hdocu htut
  unfold analyzeIssueOrch analyzeIssueCCI
  simp only [ht, hc, hr, ha]

/-- Claim C8 counterexample: on title `performance` (empty body, no labels)
the two implementations disagree — orchestrate-issue.js classifies the type
as `performance`, claude-code-integration.js as `feature`. -/
theorem claim_C8_counterexample :
    analyzeIssueOrch ("performance") ("") [] ≠ analyzeIssueCCI ("performance") ("") [] := by
  decide

/-- Witness for the amended C8 at a concrete input satisfying every
keyword-absence hypothesis. -/
theorem claim_C8_witness :
    analyzeIssueOrch ("fix the button css") ("") [] = analyzeIssueCCI ("fix the button css") ("") [] :=
  claim_C8_analyzers_agree_amended ("fix the button css") ("") []
    (by decide) (by decide) (by decide) (by decide) (by decide) (by decide)
    (by decide) (by decide) (by decide) (by decide) (by decide) (by decide)
    (by decide) (by decide) (by decide) (by decide) (by decide) (by decide)
    (by decide) (by decide) (by decide) (by decide)

/-! ## Agent coordination state machine (`coordination.js`, `AgentCoordinator`)

Agent roles are strings in the source; only the five fixed role names ever
reach the coordinator (the selector emits exactly these), so roles are
modelled by the inductive `Agent`.  Under this modelling the
`agentPriorities[agent] !== undefined` filter in `determineAgentOrder`
keeps every element and is omitted. -/

/-- The five fixed agent roles. -/
inductive Agent where
  | database
  | backend
  | frontend
  | devops
  | documentation
deriving DecidableEq

instance : Fintype Agent where
  elems := ⟨[Agent.database, Agent.backend, Agent.frontend, Agent.devops,
             Agent.documentation], by decide⟩
  complete := by intro a; cases a <;> decide

/-- The role's name string (used for communication messages). -/
def Agent.name : Agent → String
  | .database => "database"
  | .backend => "backend"
  | .frontend => "frontend"
  | .devops => "devops"
  | .documentation => "documentation"

/-- `agentPriorities` of `determineAgentOrder`. -/
def agentPriority : Agent → Nat
  | .database => 1
  | .backend => 2
  | .frontend => 3
  | .devops => 4
  | .documentation => 5

/-- `agentDependencies`, the table local to `determineAgentOrder`
(note: `documentation` depends on the three code roles here). -/
def orderDependencies : Agent → List Agent
  | .database => []
  | .backend => [.database]
  | .frontend => [.backend]
  | .devops => [.frontend, .backend, .database]
  | .documentation => [.frontend, .backend, .database]

/-- `getAgentDependencies`, the coordinator-wide dependency map used by
`canExecuteAgent` (note: `documentation` has no dependencies here). -/
def getAgentDependencies : Agent → List Agent
  | .database => []
  | .backend => [.database]
  | .frontend => [.backend]
  | .devops => [.database, .backend, .frontend]
  | .documentation => []

/-- `getAgentResources`: the named resources each role locks. -/
def getAgentResources : Agent → List String
  | .database => ["database-schema", "mongodb"]
  | .backend => ["backend-api", "express-server"]
  | .frontend => ["frontend-ui", "react-components"]
  | .devops => ["deployment-config", "ci-cd"]
  | .documentation => ["documentation-files"]

/-- Priority comparison used to model the JS
`sort((a, b) => agentPriorities[a] - agentPriorities[b])`. -/
def priLe (a b : Agent) : Prop := agentPriority a ≤ agentPriority b

/-- Strict priority comparison. -/
def priLt (a b : Agent) : Prop := agentPriority a < agentPriority b

instance : DecidableRel priLe := fun a b => Nat.decLe (agentPriority a) (agentPriority b)

instance : DecidableRel priLt := fun a b => Nat.decLt (agentPriority a) (agentPriority b)

instance : IsTotal Agent priLe := ⟨fun a b => Nat.le_total (agentPriority a) (agentPriority b)⟩

instance : IsTrans Agent priLe := ⟨fun _ _ _ h1 h2 => Nat.le_trans h1 h2⟩

/-- Sorting the required agents by priority.  The JS engine sort is stable;
since `agentPriority` is injective on the five roles, any sort with this
comparator yields the same list, and insertion sort is used here. -/
def sortAgents (l : List Agent) : List Agent := List.insertionSort priLe l

/-- `dependenciesSatisfied` check inside `determineAgentOrder`'s fixed-point
loop: every dependency is already in `result` or absent from the original
`requiredAgents`. -/
def dependenciesSatisfied (result required : List Agent) (a : Agent) : Bool :=
  (orderDependencies a).all (fun dep => result.contains dep || !(required.contains dep))

/-- One pass of the fixed-point loop's inner `for`: find the first remaining
agent whose dependencies are satisfied; return it with the rest of the list
(the `splice`). -/
def findAndRemove (result required : List Agent) : List Agent → Option (Agent × List Agent)
  | [] => none
  | a :: rest =>
    if dependenciesSatisfied result required a then some (a, rest)
    else
      match findAndRemove result required rest with
      | some (b, rest') => some (b, a :: rest')
      | none => none

/-- The `while (remaining.length > 0)` loop of `determineAgentOrder`,
fuelled.  `none` models the JS loop spinning forever (no remaining agent has
its dependencies satisfied, or fuel ran out); the termination theorem for
the fixed table shows `none` never occurs with fuel `remaining.length`. -/
def orderLoop : Nat → List Agent → List Agent → List Agent → Option (List Agent)
  | 0, result, remaining, _ => if remaining.isEmpty then some result else none
  | fuel + 1, result, remaining, required =>
    if remaining.isEmpty then some result
    else
      match findAndRemove result required remaining with
      | some (a, rest) => orderLoop fuel (result ++ [a]) rest required
      | none => none

/-- The issue fields read by the coordinator's control flow. -/
structure IssueData where
  type : String
  complexity : String
deriving DecidableEq

/-- `determineAgentOrder(requiredAgents, issueData)` (coordination.js lines
585-642): priority sort, the documentation-first special case, the
simple-single-agent special case, and the dependency fixed-point loop.  The
`getD []` default is dead code by the termination theorem. -/
def determineAgentOrder (requiredAgents : List Agent) (issueData : IssueData) : List Agent :=
  let orderedAgents := sortAgents requiredAgents
  if issueData.type == "documentation" then
    Agent.documentation :: orderedAgents.filter (fun a => a != Agent.documentation)
  else if issueData.complexity == "simple" && requiredAgents.length == 1 then
    orderedAgents
  else
    (orderLoop orderedAgents.length [] orderedAgents requiredAgents).getD []

/-! ## Ordering lemmas (C2, C10) -/

/-- Bridge between the Bool `List.contains` used by the JS `includes` model
and membership. -/
theorem containsAgent_iff (l : List Agent) (a : Agent) : l.contains a = true ↔ a ∈ l := by
  simp

/-- Every dependency in `determineAgentOrder`'s local table has strictly
lower priority than its dependent. -/
theorem orderDeps_lt (a d : Agent) (h : d ∈ orderDependencies a) : priLt d a := by
  revert h; revert a d; decide

/-- Every dependency in the coordinator-wide map has strictly lower priority
than its dependent. -/
theorem specDeps_lt (a d : Agent) (h : d ∈ getAgentDependencies a) : priLt d a := by
  revert h; revert a d; decide

/-- No role has `documentation` as a dependency in the coordinator-wide
map. -/
theorem specDeps_ne_documentation (a d : Agent) (h : d ∈ getAgentDependencies a) :
    d ≠ Agent.documentation := by
  revert h; revert a d; decide

/-- `agentPriority` is injective. -/
theorem agentPriority_injective (a b : Agent) (h : agentPriority a = agentPriority b) :
    a = b := by
  revert h; revert a b; decide

/-- The priority sort is a permutation of its input. -/
theorem sortAgents_perm (l : List Agent) : (sortAgents l).Perm l :=
  List.perm_insertionSort priLe l

/-- Membership is preserved by the priority sort. -/
theorem sortAgents_mem (l : List Agent) (a : Agent) : a ∈ sortAgents l ↔ a ∈ l :=
  (sortAgents_perm l).mem_iff

/-- The priority sort is sorted by `priLe`. -/
theorem sortAgents_pairwise (l : List Agent) : List.Pairwise priLe (sortAgents l) :=
  List.sorted_insertionSort priLe l

/-- The priority sort of a duplicate-free list is duplicate-free. -/
theorem sortAgents_nodup {l : List Agent} (h : l.Nodup) : (sortAgents l).Nodup :=
  (sortAgents_perm l).nodup_iff.mpr h

/-- A duplicate-free `priLe`-sorted list is strictly sorted, because
`agentPriority` is injective. -/
theorem pairwiseLt_of_pairwiseLe_nodup {l : List Agent}
    (hle : List.Pairwise priLe l) (hnd : l.Nodup) : List.Pairwise priLt l :=
  (hle.and hnd).imp fun h =>
    Nat.lt_of_le_of_ne h.1 fun heq => h.2 (agentPriority_injective _ _ heq)

/-- In a strictly priority-sorted list, a lower-priority member occurs
before a higher-priority member. -/
theorem pair_sublist_of_pairwiseLt {l : List Agent} {d r : Agent}
    (hpw : List.Pairwise priLt l) (hd : d ∈ l) (hr : r ∈ l) (hlt : priLt d r) :
    [d, r].Sublist l := by
  induction l with
  | nil => cases hd
  | cons x xs ih =>
    rcases List.mem_cons.mp hd with rfl | hd'
    · rcases List.mem_cons.mp hr with rfl | hr'
      · exact absurd hlt (Nat.lt_irrefl _)
      · exact List.Sublist.cons₂ _ (List.singleton_sublist.mpr hr')
    · rcases List.mem_cons.mp hr with rfl | hr'
      · have hx := (List.pairwise_cons.mp hpw).1 d hd'
        exact absurd (Nat.lt_trans hx hlt) (Nat.lt_irrefl _)
      · exact List.Sublist.cons _ (ih (List.pairwise_cons.mp hpw).2 hd' hr')

/-- The head of a `priLe`-sorted remaining list always passes
`dependenciesSatisfied`: its dependencies have strictly lower priority, so
any of them that is required is no longer in the remaining list and hence
is already in `result`. -/
theorem dependenciesSatisfied_head (res req : List Agent) (h : Agent) (t : List Agent)
    (hpw : List.Pairwise priLe (h :: t))
    (hcov : ∀ d : Agent, d ∈ req → d ∈ res ∨ d ∈ h :: t) :
    dependenciesSatisfied res req h = true := by
  unfold dependenciesSatisfied
  rw [List.all_eq_true]
  intro dep hdep
  have hlt : priLt dep h := orderDeps_lt h dep hdep
  by_cases hreq : dep ∈ req
  · rcases hcov dep hreq with hres | hrem
    · simp [containsAgent_iff, hres]
    · rcases List.mem_cons.mp hrem with rfl | hrem'
      · exact absurd hlt (Nat.lt_irrefl _)
      · have := (List.pairwise_cons.mp hpw).1 dep hrem'
        exact absurd (Nat.lt_of_le_of_lt this hlt) (Nat.lt_irrefl _)
  · simp [containsAgent_iff, hreq]

/-- The fixed-point loop of `determineAgentOrder`, run on a priority-sorted
remaining list with fuel equal to its length, consumes the whole list in
order: it never stalls and empties `remaining`. -/
theorem orderLoop_drains :
    ∀ (rem res req : List Agent), List.Pairwise priLe rem →
      (∀ d : Agent, d ∈ req → d ∈ res ∨ d ∈ rem) →
      orderLoop rem.length res rem req = some (res ++ rem) := by
  intro rem
  induction rem with
  | nil => intro res req _ _; simp [orderLoop]
  | cons h t ih =>
    intro res req hpw hcov
    have hsat : dependenciesSatisfied res req h = true :=
      dependenciesSatisfied_head res req h t hpw hcov
    have hfr : findAndRemove res req (h :: t) = some (h, t) := by
      unfold findAndRemove; rw [hsat]; simp
    have hstep : orderLoop (h :: t).length res (h :: t) req
        = orderLoop t.length (res ++ [h]) t req := by
      rw [List.length_cons]
      simp only [orderLoop, List.isEmpty_cons, hfr, Bool.false_eq_true, if_false]
    rw [hstep, ih (res ++ [h]) req (List.pairwise_cons.mp hpw).2 ?_]
    · simp
    · intro d hd
      rcases hcov d hd with hres | hrem
      · exact Or.inl (List.mem_append_left _ hres)
      · rcases List.mem_cons.mp hrem with rfl | hrem'
        · exact Or.inl (List.mem_append_right _ (List.mem_singleton.mpr rfl))
        · exact Or.inr hrem'

/-- Outside the documentation special case, `determineAgentOrder` returns
exactly the priority-sorted required agents. -/
theorem determineAgentOrder_eq_sortAgents (req : List Agent) (dat : IssueData)
    (h : dat.type ≠ "documentation") :
    determineAgentOrder req dat = sortAgents req := by
  have hb : (dat.type == "documentation") = false := by
    simp [h]
  have hloop : orderLoop (sortAgents req).length [] (sortAgents req) req
      = some (sortAgents req) := by
    have := orderLoop_drains (sortAgents req) [] req (sortAgents_pairwise req)
      (fun d hd => Or.inr ((sortAgents_mem req d).mpr hd))
    simpa using this
  unfold determineAgentOrder
  simp only [hb, Bool.false_eq_true, if_false]
  by_cases h2 : (dat.complexity == "simple" && req.length == 1) = true
  · simp [h2]
  · rw [Bool.not_eq_true] at h2
    simp [h2, hloop]

/-- `determineAgentOrder` preserves duplicate-freeness. -/
theorem determineAgentOrder_nodup (req : List Agent) (dat : IssueData) (h : req.Nodup) :
    (determineAgentOrder req dat).Nodup := by
  by_cases hd : dat.type = "documentation"
  · have hb : (dat.type == "documentation") = true := by simp [hd]
    unfold determineAgentOrder
    simp only [hb, if_true]
    refine List.Nodup.cons ?_ ((sortAgents_nodup h).filter _)
    intro hmem
    have := (List.mem_filter.mp hmem).2
    simp at this
  · rw [determineAgentOrder_eq_sortAgents req dat hd]
    exact sortAgents_nodup h

/-- Claim C10: the repeated-scan fixed-point loop of `determineAgentOrder`
always empties the remaining-agents list: run on the priority-sorted
required agents with fuel equal to their number (one unit per `while`
iteration), it reaches `remaining = []` and never hits the stall case that
would make the JS `while` loop spin forever.  This holds for every
`requiredAgents` list over the five fixed roles. -/
theorem claim_C10_orderLoop_terminates (req : List Agent) :
    orderLoop (sortAgents req).length [] (sortAgents req) req = some (sortAgents req) := by
  have := orderLoop_drains (sortAgents req) [] req (sortAgents_pairwise req)
    (fun d hd => Or.inr ((sortAgents_mem req d).mpr hd))
  simpa using this

/-- Claim C2 (corrected): for a duplicate-free subset `S` of the five roles,
`determineAgentOrder S issueData` is a permutation of `S` in which every
`getAgentDependencies` dependency of a member that is itself in `S` occurs
earlier — provided that when `issueData.type = "documentation"` the
`documentation` role belongs to `S`.  (Without that proviso the result is
not a permutation of `S`; see the counterexample.) -/
theorem claim_C2_dependency_order_amended (S : List Agent) (dat : IssueData)
    (h1 : S.Nodup) (h2 : dat.type = "documentation" → Agent.documentation ∈ S) :
    (determineAgentOrder S dat).Perm S ∧
      ∀ r ∈ S, ∀ dep ∈ getAgentDependencies r, dep ∈ S →
        [dep, r].Sublist (determineAgentOrder S dat) := by
  by_cases hd : dat.type = "documentation"
  · have hdoc := h2 hd
    have hb : (dat.type == "documentation") = true := by simp [hd]
    have hLnd : (sortAgents S).Nodup := sortAgents_nodup h1
    have hdL : Agent.documentation ∈ sortAgents S := (sortAgents_mem S _).mpr hdoc
    have he : (sortAgents S).erase Agent.documentation
        = (sortAgents S).filter (fun a => a != Agent.documentation) :=
      hLnd.erase_eq_filter Agent.documentation
    have hshape : determineAgentOrder S dat
        = Agent.documentation :: (sortAgents S).filter (fun a => a != Agent.documentation) := by
      unfold determineAgentOrder
      simp only [hb, if_true]
    constructor
    · rw [hshape, ← he]
      exact ((List.perm_cons_erase hdL).symm).trans (sortAgents_perm S)
    · intro r hr dep hdep hdepS
      have hlt : priLt dep r := specDeps_lt r dep hdep
      have hdepnd : dep ≠ Agent.documentation := specDeps_ne_documentation r dep hdep
      have hrnd : r ≠ Agent.documentation := by
        intro hrd
        subst hrd
        simp [getAgentDependencies] at hdep
      have hmemr : r ∈ (sortAgents S).filter (fun a => a != Agent.documentation) :=
        List.mem_filter.mpr ⟨(sortAgents_mem S r).mpr hr, by simp [hrnd]⟩
      have hmemd : dep ∈ (sortAgents S).filter (fun a => a != Agent.documentation) :=
        List.mem_filter.mpr ⟨(sortAgents_mem S dep).mpr hdepS, by simp [hdepnd]⟩
      have hpwf : List.Pairwise priLt
          ((sortAgents S).filter (fun a => a != Agent.documentation)) :=
        List.Pairwise.sublist (List.filter_sublist _)
          (pairwiseLt_of_pairwiseLe_nodup (sortAgents_pairwise S) hLnd)
      rw [hshape]
      exact List.Sublist.cons _ (pair_sublist_of_pairwiseLt hpwf hmemd hmemr hlt)
  · rw [determineAgentOrder_eq_sortAgents S dat hd]
    refine ⟨sortAgents_perm S, ?_⟩
    intro r hr dep hdep hdepS
    exact pair_sublist_of_pairwiseLt
      (pairwiseLt_of_pairwiseLe_nodup (sortAgents_pairwise S) (sortAgents_nodup h1))
      ((sortAgents_mem S dep).mpr hdepS) ((sortAgents_mem S r).mpr hr)
      (specDeps_lt r dep hdep)

/-- Claim C2 counterexample: with `issueData.type = "documentation"` and
`S = [frontend]`, `determineAgentOrder` returns
`[documentation, frontend]`, which is not a permutation of `S` — the claim
as stated (for every `issueData` value) is false. -/
theorem claim_C2_counterexample :
    ¬ (determineAgentOrder [Agent.frontend]
        { type := "documentation", complexity := "simple" }).Perm [Agent.frontend] := by
  decide

/-- Witness for the amended C2 at a concrete input. -/
theorem claim_C2_witness :
    (determineAgentOrder [Agent.frontend, Agent.database]
        { type := "bug", complexity := "simple" }).Perm [Agent.frontend, Agent.database] ∧
      ∀ r ∈ [Agent.frontend, Agent.database], ∀ dep ∈ getAgentDependencies r,
        dep ∈ [Agent.frontend, Agent.database] →
          [dep, r].Sublist (determineAgentOrder [Agent.frontend, Agent.database]
            { type := "bug", complexity := "simple" }) :=
  claim_C2_dependency_order_amended [Agent.frontend, Agent.database]
    { type := "bug", complexity := "simple" } (by decide) (by decide)

/-! ## Coordination state and operations -/

/-- Generic association-list lookup (JS `obj[key]`). -/
def lookupA {κ α : Type} [DecidableEq κ] : List (κ × α) → κ → Option α
  | [], _ => none
  | (k', v) :: rest, k => if k' = k then some v else lookupA rest k

/-- Generic association-list replace-or-append (JS `obj[key] = v`). -/
def insertA {κ α : Type} [DecidableEq κ] : List (κ × α) → κ → α → List (κ × α)
  | [], k, v => [(k, v)]
  | (k', v') :: rest, k, v =>
    if k' = k then (k, v) :: rest else (k', v') :: insertA rest k v

/-- Generic association-list delete (JS `delete obj[key]`). -/
def eraseA {κ α : Type} [DecidableEq κ] (l : List (κ × α)) (k : κ) : List (κ × α) :=
  l.filter (fun p => p.1 ≠ k)

/-- An agent's result payload: `none` models the default `{}`, `some m`
models `{ error: m }`. -/
abbrev ResultData := Option String

/-- One `agentProgress[agentType]` record.  The source overwrites the whole
object on each transition, so fields not written are absent (`none`). -/
structure AgentProgress where
  status : String
  retryAttempt : Option Nat := none
  result : Option ResultData := none
  lastError : Option String := none
deriving DecidableEq

/-- One inter-agent communication message (timestamp omitted; the `data`
payload of the only message the coordinator itself writes is flattened into
the two optional fields). -/
structure Message where
  fromAgent : String
  toAgent : String
  message : String
  dataRetryAttempt : Option Nat := none
  dataError : Option String := none
deriving DecidableEq

/-- One entry of `activeIssues` (timestamps omitted). -/
structure Issue where
  issueNumber : Nat
  issueData : IssueData
  requiredAgents : List Agent
  status : String
  agentProgress : List (Agent × AgentProgress)
  currentAgent : Option Agent
  completedAgents : List Agent
  failedAgents : List Agent
  communicationLog : Option (List Message) := none
deriving DecidableEq

/-- One entry of the flat work queue (`queueTime`/`startTime` omitted). -/
structure QueueItem where
  issueId : String
  agentType : Agent
  status : String
  retryAttempt : Option Nat := none
deriving DecidableEq

/-- The persisted coordination state (`coordination-state.json`). -/
structure CoordState where
  activeIssues : List (String × Issue)
  agentQueue : List QueueItem
  resourceLocks : List (String × Nat)
  agentCommunication : List (String × List Message)
deriving DecidableEq

/-- The fresh coordination state written by `initializeCoordinationState`. -/
def initialState : CoordState := ⟨[], [], [], []⟩

/-- `issue-{issueNumber}`. -/
def issueIdOf (n : Nat) : String := "issue-" ++ toString n

/-- The descriptor returned by `getNextAgent`. -/
structure NextAgent where
  issueId : String
  issueNumber : Nat
  agentType : Agent
  issueData : IssueData
deriving DecidableEq

/-- `registerIssue(issueNumber, issueData, requiredAgents)`: create the
issue record, enqueue one entry per agent in `determineAgentOrder` order,
save, return the issue id. -/
def registerIssue (st : CoordState) (issueNumber : Nat) (issueData : IssueData)
    (requiredAgents : List Agent) : CoordState × String :=
  let issueId := issueIdOf issueNumber
  let issue : Issue :=
    { issueNumber := issueNumber
      issueData := issueData
      requiredAgents := requiredAgents
      status := "registered"
      agentProgress := []
      currentAgent := none
      completedAgents := []
      failedAgents := [] }
  let orderedAgents := determineAgentOrder requiredAgents issueData
  ({ st with
      activeIssues := insertA st.activeIssues issueId issue
      agentQueue := st.agentQueue
        ++ orderedAgents.map (fun a => { issueId := issueId, agentType := a, status := "queued" }) },
    issueId)

/-- `canExecuteAgent(agentType, issue)`: every resource of the role is
unlocked or locked by this issue (a lock value of `0` is falsy in JS and
counts as unlocked), and every dependency of the role that is required is
already completed. -/
def canExecuteAgent (st : CoordState) (agentType : Agent) (issue : Issue) : Bool :=
  (getAgentResources agentType).all (fun r =>
    match lookupA st.resourceLocks r with
    | some holder => holder == 0 || holder == issue.issueNumber
    | none => true) &&
  (getAgentDependencies agentType).all (fun dep =>
    !(issue.requiredAgents.contains dep) || issue.completedAgents.contains dep)

/-- The scan of `getNextAgent`: find the first `queued` entry of a known
issue whose `canExecuteAgent` check passes; return the queue with that
entry marked `executing`, the marked entry, and its issue.  (The source's
`canExecuteAgent` re-reads the state file; no save has happened since
`getNextAgent` loaded it, so both see the same state `st`.) -/
def getNextAgentAux (st : CoordState) : List QueueItem → Option (List QueueItem × QueueItem × Issue)
  | [] => none
  | item :: rest =>
    if item.status == "queued" then
      match lookupA st.activeIssues item.issueId with
      | some issue =>
        if canExecuteAgent st item.agentType issue then
          let item' := { item with status := "executing" }
          some (item' :: rest, item', issue)
        else
          match getNextAgentAux st rest with
          | some (rest', it, iss) => some (item :: rest', it, iss)
          | none => none
      | none =>
        match getNextAgentAux st rest with
        | some (rest', it, iss) => some (item :: rest', it, iss)
        | none => none
    else
      match getNextAgentAux st rest with
      | some (rest', it, iss) => some (item :: rest', it, iss)
      | none => none

/-- `getNextAgent()`: mark the first runnable queued entry `executing`,
stamp `currentAgent` and `agentProgress`, save, and return its descriptor;
return `null` (and save nothing) when no entry is runnable. -/
def getNextAgent (st : CoordState) : CoordState × Option NextAgent :=
  match getNextAgentAux st st.agentQueue with
  | none => (st, none)
  | some (queue', item, issue) =>
    let issue' := { issue with
      currentAgent := some item.agentType
      agentProgress := insertA issue.agentProgress item.agentType { status := "executing" } }
    ({ st with
        activeIssues := insertA st.activeIssues item.issueId issue'
        agentQueue := queue' },
      some { issueId := item.issueId, issueNumber := issue.issueNumber,
             agentType := item.agentType, issueData := issue.issueData })

/-- `acquireResourceLocks(agentType, issueNumber)`. -/
def acquireResourceLocks (st : CoordState) (agentType : Agent) (issueNumber : Nat) : CoordState :=
  let locks' := (getAgentResources agentType).foldl
    (fun locks r => insertA locks r issueNumber) st.resourceLocks
  { st with resourceLocks := locks' }

/-- `releaseResourceLocks(agentType, issueNumber)`: delete each of the
role's resources whose holder is this issue. -/
def releaseResourceLocks (st : CoordState) (agentType : Agent) (issueNumber : Nat) : CoordState :=
  let step := fun (locks : List (String × Nat)) (r : String) =>
    match lookupA locks r with
    | some holder => if holder = issueNumber then eraseA locks r else locks
    | none => locks
  let locks' := (getAgentResources agentType).foldl step st.resourceLocks
  { st with resourceLocks := locks' }

/-- `addAgentCommunication(issueId, fromAgent, toAgent, message, data)`:
append to the issue's message list and save. -/
def addAgentCommunication (st : CoordState) (issueId fromAgent toAgent message : String)
    (dataRetry : Option Nat) (dataErr : Option String) : CoordState :=
  let msgs := (lookupA st.agentCommunication issueId).getD []
  let msg : Message := { fromAgent := fromAgent, toAgent := toAgent, message := message,
                         dataRetryAttempt := dataRetry, dataError := dataErr }
  let comm' := insertA st.agentCommunication issueId (msgs ++ [msg])
  { st with agentCommunication := comm' }

/-- `getAgentCommunication(issueId)` (without the optional role filter). -/
def getAgentCommunication (st : CoordState) (issueId : String) : List Message :=
  (lookupA st.agentCommunication issueId).getD []

/-- The record returned by `recordAgentCompletion`. -/
structure CompletionOut where
  issueComplete : Bool
  nextAgent : Option NextAgent
deriving DecidableEq

/-- `recordAgentCompletion(issueId, agentType, success, result)`.  Faithful
to the source's save order: the method loads the state, mutates it in
memory, calls `releaseResourceLocks` — which loads the *file* (still the
original state), deletes the locks and saves — and then saves its own
in-memory state, whose `resourceLocks` were never modified, overwriting the
release.  The dead `let` keeps that clobbered call visible.  On an unknown
issue id it throws before any save, leaving the persisted state unchanged. -/
def recordAgentCompletion (disk : CoordState) (issueId : String) (agentType : Agent)
    (success : Bool) (result : ResultData) : CoordState × Except String CompletionOut :=
  let state := disk
  match lookupA state.activeIssues issueId with
  | none => (disk, Except.error ("Issue " ++ issueId ++ " not found in coordination state"))
  | some issue =>
    let issue1 := { issue with
      currentAgent := none
      agentProgress := insertA issue.agentProgress agentType
        { status := if success then "completed" else "failed", result := some result }
      completedAgents :=
        if success then issue.completedAgents ++ [agentType] else issue.completedAgents
      failedAgents :=
        if success then issue.failedAgents else issue.failedAgents ++ [agentType] }
    let queue1 := state.agentQueue.filter
      (fun item => !(item.issueId == issueId && item.agentType == agentType))
    let _ := releaseResourceLocks disk agentType issue.issueNumber
    let remaining := queue1.filter (fun item => item.issueId == issueId)
    let issue2 :=
      if remaining.length == 0 then
        { issue1 with
          status := "completed"
          communicationLog :=
            match lookupA state.agentCommunication issueId with
            | some log => some log
            | none => issue1.communicationLog }
      else issue1
    let comm2 :=
      if remaining.length == 0 then
        match lookupA state.agentCommunication issueId with
        | some _ => eraseA state.agentCommunication issueId
        | none => state.agentCommunication
      else state.agentCommunication
    let saved : CoordState := { state with
      activeIssues := insertA state.activeIssues issueId issue2
      agentQueue := queue1
      agentCommunication := comm2 }
    if remaining.length == 0 then
      (saved, Except.ok { issueComplete := true, nextAgent := none })
    else
      let next := getNextAgent saved
      (next.1, Except.ok { issueComplete := false, nextAgent := next.2 })

/-- Per-role maximum retry attempts (`maxRetries` in `shouldRetryAgent`). -/
def maxRetries : Agent → Nat
  | .frontend => 2
  | .backend => 2
  | .database => 1
  | .devops => 3
  | .documentation => 2

/-- The fixed substring denylist of non-retryable error phrases. -/
def nonRetryableErrors : List String :=
  ["syntax error", "invalid configuration", "authentication failed", "permission denied"]

/-- `shouldRetryAgent(agentType, error)`.  The source hardcodes
`currentRetries = 0` with the comment "This should be tracked in the
calling context", so the max-retry ceiling compares against 0, not the
recorded retry count. -/
def shouldRetryAgent (agentType : Agent) (errMsg : String) : Bool :=
  let currentRetries := 0
  if maxRetries agentType ≤ currentRetries then false
  else if nonRetryableErrors.any (fun phrase => hasKw (lowerL errMsg) phrase) then false
  else true

/-- `handleAgentFailure(issueId, agentType, error)`.  Faithful to the
source's save order: on retry it pushes the new queued entry and updates
`agentProgress` in memory, calls `addAgentCommunication` — which loads the
*file* (still the original state), appends the message and saves — and then
saves its own in-memory state, which never contained the message,
overwriting it.  On no-retry it calls `recordAgentCompletion` — which loads
the file, records the failure and saves — and then saves its own unmutated
in-memory state, overwriting all of that too.  The dead `let`s keep the
clobbered calls visible.  On an unknown issue id it throws before any save. -/
def handleAgentFailure (disk : CoordState) (issueId : String) (agentType : Agent)
    (errMsg : String) : CoordState × Except String Bool :=
  let state := disk
  match lookupA state.activeIssues issueId with
  | none => (disk, Except.error ("Issue " ++ issueId ++ " not found"))
  | some issue =>
    let shouldRetry := shouldRetryAgent agentType errMsg
    if shouldRetry then
      let attempt := ((lookupA issue.agentProgress agentType).bind
        (fun p => p.retryAttempt)).getD 0 + 1
      let issue1 := { issue with
        agentProgress := insertA issue.agentProgress agentType
          { status := "retry", retryAttempt := some attempt, lastError := some errMsg } }
      let _ := addAgentCommunication disk issueId ("coordinator") agentType.name
        ("Agent queued for retry") (some attempt) (some errMsg)
      ({ state with
          activeIssues := insertA state.activeIssues issueId issue1
          agentQueue := state.agentQueue
            ++ [{ issueId := issueId, agentType := agentType, status := "queued",
                  retryAttempt := some attempt }] },
        Except.ok true)
    else
      let _ := recordAgentCompletion disk issueId agentType false (some errMsg)
      (state, Except.ok false)

/-! ## C9: unknown issue ids -/

/-- Claim C9: on an issue id that is not a key of `activeIssues`, both
`recordAgentCompletion` and `handleAgentFailure` throw (model: return
`Except.error`) and the persisted coordination state is exactly the state
before the call — the throw happens before any save. -/
theorem claim_C9_unknown_issue_throws (disk : CoordState) (iid : String) (a : Agent)
    (ok : Bool) (r : ResultData) (err : String)
    (h : lookupA disk.activeIssues iid = none) :
    recordAgentCompletion disk iid a ok r
        = (disk, Except.error ("Issue " ++ iid ++ " not found in coordination state")) ∧
      handleAgentFailure disk iid a err
        = (disk, Except.error ("Issue " ++ iid ++ " not found")) := by
  unfold recordAgentCompletion handleAgentFailure
  simp only [h]
  trivial

/-- Witness for C9 on the fresh state and issue id `issue-9`. -/
theorem claim_C9_witness :
    lookupA initialState.activeIssues ("issue-9") = none ∧
      (recordAgentCompletion initialState ("issue-9") Agent.frontend true none
          = (initialState, Except.error ("Issue " ++ "issue-9" ++ " not found in coordination state")) ∧
        handleAgentFailure initialState ("issue-9") Agent.frontend ("boom")
          = (initialState, Except.error ("Issue " ++ "issue-9" ++ " not found"))) :=
  ⟨rfl, claim_C9_unknown_issue_throws initialState ("issue-9") Agent.frontend true none ("boom") rfl⟩

/-! ## C3: the retry ceiling is never enforced -/

/-- A registered issue whose frontend role already records
`retryAttempt = 2`, the configured maximum for frontend. -/
def retryCapIssue : Issue :=
  { issueNumber := 7
    issueData := { type := "bug", complexity := "simple" }
    requiredAgents := [Agent.frontend]
    status := "registered"
    agentProgress := [(Agent.frontend, { status := "retry", retryAttempt := some 2 })]
    currentAgent := none
    completedAgents := []
    failedAgents := [] }

/-- Coordination state containing `retryCapIssue` with its frontend queue
entry executing. -/
def retryCapState : CoordState :=
  { activeIssues := [(issueIdOf 7, retryCapIssue)]
    agentQueue := [{ issueId := issueIdOf 7, agentType := Agent.frontend, status := "executing" }]
    resourceLocks := []
    agentCommunication := [] }

/-- Claim C3 names the intended behaviour; the code contradicts it because
`shouldRetryAgent` hardcodes `currentRetries = 0` (its own comment admits
the count "should be tracked in the calling context").  At the failing
input — frontend at its configured maximum of 2 recorded retries, error
`network timeout` which matches no denylist phrase — `handleAgentFailure`
returns `true` and re-queues the role with `retryAttempt = 3` instead of
returning `false` and recording it as failed. -/
theorem claim_C3_retry_cap_not_enforced :
    (handleAgentFailure retryCapState (issueIdOf 7) Agent.frontend ("network timeout")).2
        = Except.ok true ∧
      (handleAgentFailure retryCapState (issueIdOf 7) Agent.frontend ("network timeout")).1.agentQueue
        = retryCapState.agentQueue
          ++ [{ issueId := issueIdOf 7, agentType := Agent.frontend, status := "queued",
                retryAttempt := some 3 }] :=
  ⟨rfl, rfl⟩

/-! ## C4: resource locks survive recordAgentCompletion -/

/-- State after registering issue 5 (frontend only), acquiring the frontend
locks for it, and dequeuing the frontend agent. -/
def lockScenarioState : CoordState :=
  (getNextAgent (acquireResourceLocks
    (registerIssue initialState 5 { type := "bug", complexity := "simple" } [Agent.frontend]).1
    Agent.frontend 5)).1

/-- Claim C4 states the source's evident intent (it calls
`releaseResourceLocks` and comments "Release resource locks"), but the
release is lost: `releaseResourceLocks` loads the state file and saves it
with the locks removed, after which `recordAgentCompletion` saves its own
in-memory snapshot — loaded before the release and never lock-mutated —
overwriting that write.  After completing the frontend role of issue 5,
which holds `frontend-ui` and `react-components`, both locks still map to
issue 5 in the persisted state. -/
theorem claim_C4_locks_not_released :
    lookupA ((recordAgentCompletion lockScenarioState (issueIdOf 5) Agent.frontend
        true none).1).resourceLocks ("frontend-ui") = some 5 ∧
      lookupA ((recordAgentCompletion lockScenarioState (issueIdOf 5) Agent.frontend
        true none).1).resourceLocks ("react-components") = some 5 := by
  decide

/-! ## C6: the retry communication message is lost -/

/-- State after registering issue 1 (frontend only) and dequeuing the
frontend agent. -/
def retryMsgState : CoordState :=
  (getNextAgent (registerIssue initialState 1
    { type := "bug", complexity := "simple" } [Agent.frontend]).1).1

/-- Claim C6's first half holds at this input — the retry decision
re-queues (frontend, issue-1) with `retryAttempt` one greater than the
recorded count (0 → 1) — but its second half is contradicted by the code:
`addAgentCommunication` persists the `Agent queued for retry` message and
`handleAgentFailure` then saves its stale in-memory state, so the persisted
communication log for the issue is empty, not containing the message. -/
theorem claim_C6_retry_message_lost :
    (handleAgentFailure retryMsgState (issueIdOf 1) Agent.frontend ("network error")).2
        = Except.ok true ∧
      (handleAgentFailure retryMsgState (issueIdOf 1) Agent.frontend ("network error")).1.agentQueue
        = retryMsgState.agentQueue
          ++ [{ issueId := issueIdOf 1, agentType := Agent.frontend, status := "queued",
                retryAttempt := some 1 }] ∧
      getAgentCommunication
        (handleAgentFailure retryMsgState (issueIdOf 1) Agent.frontend ("network error")).1
        (issueIdOf 1) = [] :=
  ⟨rfl, rfl, rfl⟩

/-! ## C1: draining the queue -/

/-- The driver loop exactly as claim C1 states it: each round is a
standalone `getNextAgent()` followed by
`recordAgentCompletion(issueId, returnedAgentType, true, result)`;
`none` when a round's `getNextAgent` returns null or its completion
throws. -/
def runRounds (disk : CoordState) (k : Nat) (res : ResultData) : Option CoordState :=
  match k with
  | 0 => some disk
  | k + 1 =>
    match getNextAgent disk with
    | (disk1, some d) =>
      match recordAgentCompletion disk1 d.issueId d.agentType true res with
      | (disk2, Except.ok _) => runRounds disk2 k res
      | (_, Except.error _) => none
    | (_, none) => none

/-- Claim C1 counterexample: register issue 1 with the two roles
`[database, backend]` from the fresh state and run the claim's loop for
N = 2 rounds.  Round 1 succeeds, but its `recordAgentCompletion` already
calls `getNextAgent()` internally, marking the backend entry `executing`;
round 2's standalone `getNextAgent()` then finds no `queued` entry and
returns null, so the loop fails before N rounds complete. -/
theorem claim_C1_counterexample :
    runRounds (registerIssue initialState 1
      { type := "bug", complexity := "moderate" } [Agent.database, Agent.backend]).1 2 none
      = none := by
  decide

/-- The corrected driver: one standalone `getNextAgent()`, then each later
round consumes the `nextAgent` descriptor that the previous
`recordAgentCompletion` returned (its internal `getNextAgent()` has already
marked that entry `executing`). -/
def drainChain : CoordState → Option NextAgent → Nat → ResultData → Option CoordState
  | disk, _, 0, _ => some disk
  | _, none, _ + 1, _ => none
  | disk, some d, k + 1, res =>
    match recordAgentCompletion disk d.issueId d.agentType true res with
    | (disk1, Except.ok out) => drainChain disk1 out.nextAgent k res
    | (_, Except.error _) => none

/-- Run the corrected driver for `k` completions starting from a standalone
`getNextAgent()`. -/
def drainRun (disk : CoordState) (k : Nat) (res : ResultData) : Option CoordState :=
  let first := getNextAgent disk
  drainChain first.1 first.2 k res

/-- A `queued` work-queue entry without retry data. -/
def entryQueued (iid : String) (a : Agent) : QueueItem :=
  { issueId := iid, agentType := a, status := "queued" }

/-- An `executing` work-queue entry without retry data. -/
def entryExec (iid : String) (a : Agent) : QueueItem :=
  { issueId := iid, agentType := a, status := "executing" }

/-- The issue record in the middle of the happy-path drain: roles in `done`
completed, `cur` executing, no failures. -/
def midIssue (n : Nat) (dat : IssueData) (roles : List Agent)
    (prog : List (Agent × AgentProgress)) (cur : Agent) (done : List Agent) : Issue :=
  { issueNumber := n, issueData := dat, requiredAgents := roles, status := "registered",
    agentProgress := prog, currentAgent := some cur, completedAgents := done,
    failedAgents := [] }

/-- The persisted state in the middle of the happy-path drain: the single
issue, its `cur` entry executing at the head of the queue followed by the
pending roles queued in order, no locks, no buffered messages. -/
def midState (iid : String) (n : Nat) (dat : IssueData) (roles : List Agent)
    (prog : List (Agent × AgentProgress)) (cur : Agent) (done pending : List Agent) :
    CoordState :=
  { activeIssues := [(iid, midIssue n dat roles prog cur done)]
    agentQueue := entryExec iid cur :: pending.map (fun a => entryQueued iid a)
    resourceLocks := []
    agentCommunication := [] }

/-- The in-memory state `recordAgentCompletion` saves mid-drain, before its
trailing `getNextAgent()` call. -/
def savedMid (iid : String) (n : Nat) (dat : IssueData) (roles : List Agent)
    (prog : List (Agent × AgentProgress)) (cur : Agent) (done pending : List Agent)
    (res : ResultData) : CoordState :=
  { activeIssues := [(iid,
      { issueNumber := n, issueData := dat, requiredAgents := roles,
        status := "registered",
        agentProgress := insertA prog cur { status := "completed", result := some res },
        currentAgent := none, completedAgents := done ++ [cur], failedAgents := [] })]
    agentQueue := pending.map (fun a => entryQueued iid a)
    resourceLocks := []
    agentCommunication := [] }

/-- Queue entries of other roles survive the completion filter. -/
theorem filter_map_queued_ne (iid : String) (cur : Agent) (pending : List Agent)
    (h : cur ∉ pending) :
    (pending.map (fun a => entryQueued iid a)).filter
        (fun item => !(item.issueId == iid && item.agentType == cur))
      = pending.map (fun a => entryQueued iid a) := by
  apply List.filter_eq_self.mpr
  intro item hitem
  rcases List.mem_map.mp hitem with ⟨a, ha, rfl⟩
  have hne : a ≠ cur := fun heq => h (heq ▸ ha)
  simp [entryQueued, hne]

/-- Queue entries built for `iid` all pass the same-issue filter. -/
theorem filter_map_queued_iid (iid : String) (pending : List Agent) :
    (pending.map (fun a => entryQueued iid a)).filter (fun item => item.issueId == iid)
      = pending.map (fun a => entryQueued iid a) := by
  apply List.filter_eq_self.mpr
  intro item hitem
  rcases List.mem_map.mp hitem with ⟨a, _, rfl⟩
  simp [entryQueued]

/-- `canExecuteAgent` passes when no resource is locked and every required
dependency is completed. -/
theorem canExecuteAgent_of (st : CoordState) (a : Agent) (issue : Issue)
    (hlocks : st.resourceLocks = [])
    (hdeps : ∀ d ∈ getAgentDependencies a, d ∈ issue.requiredAgents →
      d ∈ issue.completedAgents) :
    canExecuteAgent st a issue = true := by
  unfold canExecuteAgent
  rw [hlocks, Bool.and_eq_true]
  constructor
  · rw [List.all_eq_true]
    intro r _
    simp [lookupA]
  · rw [List.all_eq_true]
    intro d hd
    by_cases hreq : d ∈ issue.requiredAgents
    · simp [hdeps d hd hreq]
    · simp [hreq]

/-- The issue as stamped by `getNextAgent` when it dequeues role `a`. -/
def issueStamped (issue : Issue) (a : Agent) : Issue :=
  { issue with
      currentAgent := some a
      agentProgress := insertA issue.agentProgress a { status := "executing" } }

/-- `getNextAgent` on a state whose single issue's head queue entry is
queued and runnable: the entry is marked `executing`, `currentAgent` and
`agentProgress` are stamped, and its descriptor is returned. -/
theorem getNextAgent_entry_queued (iid : String) (issue : Issue) (a : Agent)
    (restQ : List QueueItem)
    (hdeps : ∀ d ∈ getAgentDependencies a, d ∈ issue.requiredAgents →
      d ∈ issue.completedAgents) :
    getNextAgent ⟨[(iid, issue)], entryQueued iid a :: restQ, [], []⟩
      = (⟨[(iid, issueStamped issue a)], entryExec iid a :: restQ, [], []⟩,
        some { issueId := iid, issueNumber := issue.issueNumber, agentType := a,
               issueData := issue.issueData }) := by
  have hcan : canExecuteAgent ⟨[(iid, issue)], entryQueued iid a :: restQ, [], []⟩ a issue
      = true :=
    canExecuteAgent_of _ _ _ rfl hdeps
  unfold getNextAgent getNextAgentAux issueStamped
  simp only [entryQueued] at hcan
  simp [entryQueued, entryExec, lookupA, insertA, hcan]

/-- The fully-drained issue record. -/
def doneIssue (n : Nat) (dat : IssueData) (roles : List Agent)
    (progF : List (Agent × AgentProgress)) (allDone : List Agent) : Issue :=
  { issueNumber := n
    issueData := dat
    requiredAgents := roles
    status := "completed"
    agentProgress := progF
    currentAgent := none
    completedAgents := allDone
    failedAgents := [] }

/-- The fully-drained coordination state. -/
def doneState (iid : String) (n : Nat) (dat : IssueData) (roles : List Agent)
    (progF : List (Agent × AgentProgress)) (allDone : List Agent) : CoordState :=
  { activeIssues := [(iid, doneIssue n dat roles progF allDone)]
    agentQueue := []
    resourceLocks := []
    agentCommunication := [] }

/-- `recordAgentCompletion` of the last pending role: the queue entry is
removed, no entries remain, the issue is marked `completed` (no buffered
messages to migrate), and no trailing `getNextAgent` runs. -/
theorem recordAgentCompletion_mid_nil (iid : String) (n : Nat) (dat : IssueData)
    (roles : List Agent) (prog : List (Agent × AgentProgress)) (cur : Agent)
    (done : List Agent) (res : ResultData) :
    recordAgentCompletion (midState iid n dat roles prog cur done []) iid cur true res
      = (doneState iid n dat roles
          (insertA prog cur { status := "completed", result := some res }) (done ++ [cur]),
        Except.ok { issueComplete := true, nextAgent := none }) := by
  unfold recordAgentCompletion midState midIssue doneState doneIssue
  simp [lookupA, insertA, entryExec]

/-- `recordAgentCompletion` mid-drain with pending roles left: the `cur`
entry is removed, the issue stays `registered`, and the trailing
`getNextAgent` runs on the saved state. -/
theorem recordAgentCompletion_mid_cons (iid : String) (n : Nat) (dat : IssueData)
    (roles : List Agent) (prog : List (Agent × AgentProgress)) (cur c2 : Agent)
    (done rest2 : List Agent) (res : ResultData) (hnotin : cur ∉ c2 :: rest2) :
    recordAgentCompletion (midState iid n dat roles prog cur done (c2 :: rest2)) iid cur true res
      = ((getNextAgent (savedMid iid n dat roles prog cur done (c2 :: rest2) res)).1,
        Except.ok
          { issueComplete := false
            nextAgent := (getNextAgent (savedMid iid n dat roles prog cur done (c2 :: rest2) res)).2 }) := by
  have hf1 := filter_map_queued_ne iid cur (c2 :: rest2) hnotin
  have hf2 := filter_map_queued_iid iid (c2 :: rest2)
  have hlen : ((List.map (fun a => entryQueued iid a) (c2 :: rest2)).length == 0) = false := by
    simp
  unfold recordAgentCompletion midState midIssue savedMid
  simp only [lookupA, insertA, List.filter_cons, entryExec, beq_self_eq_true,
    Bool.true_and, Bool.and_self, Bool.not_true, Bool.false_eq_true, if_false,
    eq_self_iff_true, if_true, hf1, hf2, hlen]

/-- The issue record inside `savedMid`. -/
def savedIssueMid (n : Nat) (dat : IssueData) (roles : List Agent)
    (prog : List (Agent × AgentProgress)) (cur : Agent) (done : List Agent)
    (res : ResultData) : Issue :=
  { issueNumber := n
    issueData := dat
    requiredAgents := roles
    status := "registered"
    agentProgress := insertA prog cur { status := "completed", result := some res }
    currentAgent := none
    completedAgents := done ++ [cur]
    failedAgents := [] }

/-- The corrected drain chain, started mid-state on the executing role
`cur` with `pending` roles queued behind it, completes every remaining role
in order and ends with an empty queue and the issue `completed`. -/
theorem drainChain_drains :
    ∀ (pending done : List Agent) (prog : List (Agent × AgentProgress)) (cur : Agent)
      (iid : String) (n : Nat) (dat : IssueData) (roles : List Agent) (res : ResultData),
      List.Pairwise priLt (done ++ cur :: pending) →
      (∀ a : Agent, a ∈ roles → a ∈ done ++ cur :: pending) →
      ∃ progF : List (Agent × AgentProgress),
        drainChain (midState iid n dat roles prog cur done pending)
            (some { issueId := iid, issueNumber := n, agentType := cur, issueData := dat })
            (pending.length + 1) res
          = some (doneState iid n dat roles progF (done ++ cur :: pending)) := by
  intro pending
  induction pending with
  | nil =>
    intro done prog cur iid n dat roles res hpw hcov
    refine ⟨insertA prog cur { status := "completed", result := some res }, ?_⟩
    have hrec := recordAgentCompletion_mid_nil iid n dat roles prog cur done res
    simp only [List.length_nil, drainChain, hrec]
  | cons c2 rest2 ih =>
    intro done prog cur iid n dat roles res hpw hcov
    have hsub : List.Pairwise priLt (cur :: c2 :: rest2) :=
      List.Pairwise.sublist (List.sublist_append_right done (cur :: c2 :: rest2)) hpw
    have hcur_lt : ∀ b ∈ c2 :: rest2, priLt cur b := (List.pairwise_cons.mp hsub).1
    have hnotin : cur ∉ c2 :: rest2 := fun hmem => absurd (hcur_lt cur hmem) (Nat.lt_irrefl _)
    have hrec := recordAgentCompletion_mid_cons iid n dat roles prog cur c2 done rest2 res hnotin
    have hdeps : ∀ d ∈ getAgentDependencies c2,
        d ∈ (savedIssueMid n dat roles prog cur done res).requiredAgents →
          d ∈ (savedIssueMid n dat roles prog cur done res).completedAgents := by
      intro d hd hdr
      have hlt : priLt d c2 := specDeps_lt c2 d hd
      have hmem := hcov d hdr
      rcases List.mem_append.mp hmem with h1 | h2
      · exact List.mem_append_left _ h1
      · rcases List.mem_cons.mp h2 with rfl | h3
        · exact List.mem_append_right _ (List.mem_singleton.mpr rfl)
        · rcases List.mem_cons.mp h3 with rfl | h4
          · exact absurd hlt (Nat.lt_irrefl _)
          · have h5 : priLt c2 d :=
              (List.pairwise_cons.mp (List.pairwise_cons.mp hsub).2).1 d h4
            exact absurd (Nat.lt_trans h5 hlt) (Nat.lt_irrefl _)
    have hnext := getNextAgent_entry_queued iid (savedIssueMid n dat roles prog cur done res)
      c2 (List.map (fun a => entryQueued iid a) rest2) hdeps
    have hsavedeq : savedMid iid n dat roles prog cur done (c2 :: rest2) res
        = ⟨[(iid, savedIssueMid n dat roles prog cur done res)],
           entryQueued iid c2 :: List.map (fun a => entryQueued iid a) rest2, [], []⟩ := rfl
    have hpw' : List.Pairwise priLt ((done ++ [cur]) ++ c2 :: rest2) := by
      rw [List.append_assoc, List.singleton_append]
      exact hpw
    have hcov' : ∀ a : Agent, a ∈ roles → a ∈ (done ++ [cur]) ++ c2 :: rest2 := by
      rw [List.append_assoc, List.singleton_append]
      exact hcov
    obtain ⟨progF, hihp⟩ := ih (done ++ [cur])
      (insertA (insertA prog cur { status := "completed", result := some res }) c2
        { status := "executing" })
      c2 iid n dat roles res hpw' hcov'
    rw [List.append_assoc, List.singleton_append] at hihp
    refine ⟨progF, ?_⟩
    simp only [List.length_cons, drainChain, hrec, hsavedeq, hnext]
    exact hihp

/-- The issue record as `registerIssue` creates it. -/
def regIssue (n : Nat) (dat : IssueData) (roles : List Agent) : Issue :=
  { issueNumber := n
    issueData := dat
    requiredAgents := roles
    status := "registered"
    agentProgress := []
    currentAgent := none
    completedAgents := []
    failedAgents := [] }

/-- `registerIssue` on the fresh state produces the single issue and its
priority-ordered queue entries. -/
theorem registerIssue_initial (n : Nat) (dat : IssueData) (roles : List Agent)
    (h3 : dat.type ≠ "documentation") :
    (registerIssue initialState n dat roles).1
      = ⟨[(issueIdOf n, regIssue n dat roles)],
         (sortAgents roles).map (fun a => entryQueued (issueIdOf n) a), [], []⟩ := by
  unfold registerIssue initialState regIssue
  simp only [determineAgentOrder_eq_sortAgents roles dat h3, insertA, entryQueued,
    List.nil_append]

/-- Claim C1 (corrected): starting fresh, register an issue with a
nonempty duplicate-free role list and non-documentation issue data; then
one standalone `getNextAgent()` followed by N chained
`recordAgentCompletion(..., true, ...)` calls — each later round consuming
the `nextAgent` descriptor returned by the previous completion — succeeds
at every round, leaves no queue entries for the issue, and sets its status
to `completed`.  (The claim's original driver, a standalone `getNextAgent()`
every round, fails for N ≥ 2 because `recordAgentCompletion` already marks
the next entry `executing`; see the counterexample.) -/
theorem claim_C1_queue_drain_amended (roles : List Agent) (n : Nat) (dat : IssueData)
    (res : ResultData) (h1 : roles.Nodup) (h2 : roles ≠ [])
    (h3 : dat.type ≠ "documentation") :
    ∃ s : CoordState,
      drainRun (registerIssue initialState n dat roles).1 roles.length res = some s ∧
        s.agentQueue.filter (fun e => e.issueId == issueIdOf n) = [] ∧
        (lookupA s.activeIssues (issueIdOf n)).map Issue.status = some "completed" := by
  have hreg := registerIssue_initial n dat roles h3
  cases hsa : sortAgents roles with
  | nil =>
    exfalso
    have hperm := sortAgents_perm roles
    rw [hsa] at hperm
    exact h2 (hperm.symm.eq_nil)
  | cons cur pending =>
    have hpl : List.Pairwise priLt (cur :: pending) := by
      have := pairwiseLt_of_pairwiseLe_nodup (sortAgents_pairwise roles) (sortAgents_nodup h1)
      rw [hsa] at this
      exact this
    have hdeps0 : ∀ d ∈ getAgentDependencies cur,
        d ∈ (regIssue n dat roles).requiredAgents →
          d ∈ (regIssue n dat roles).completedAgents := by
      intro d hd hdr
      exfalso
      have hlt := specDeps_lt cur d hd
      have hmem : d ∈ sortAgents roles := (sortAgents_mem roles d).mpr hdr
      rw [hsa] at hmem
      rcases List.mem_cons.mp hmem with rfl | h4
      · exact absurd hlt (Nat.lt_irrefl _)
      · have := (List.pairwise_cons.mp hpl).1 d h4
        exact absurd (Nat.lt_trans this hlt) (Nat.lt_irrefl _)
    have hnext := getNextAgent_entry_queued (issueIdOf n) (regIssue n dat roles) cur
      (List.map (fun a => entryQueued (issueIdOf n) a) pending) hdeps0
    have hpw0 : List.Pairwise priLt ([] ++ cur :: pending) := by
      simpa using hpl
    have hcov0 : ∀ a : Agent, a ∈ roles → a ∈ [] ++ cur :: pending := by
      intro a ha
      have hmem : a ∈ sortAgents roles := (sortAgents_mem roles a).mpr ha
      rw [hsa] at hmem
      simpa using hmem
    obtain ⟨progF, hch⟩ := drainChain_drains pending []
      (insertA [] cur { status := "executing" }) cur (issueIdOf n) n dat roles res hpw0 hcov0
    have hlen : roles.length = pending.length + 1 := by
      have := (sortAgents_perm roles).length_eq
      rw [hsa] at this
      simpa using this.symm
    refine ⟨doneState (issueIdOf n) n dat roles progF ([] ++ cur :: pending), ?_, ?_, ?_⟩
    · unfold drainRun
      rw [hreg, hsa]
      simp only [List.map_cons, hnext, hlen]
      exact hch
    · simp [doneState]
    · simp [doneState, doneIssue, lookupA]

/-- Witness for the amended C1: issue 3 with roles `[database, frontend]`
drains in two chained rounds. -/
theorem claim_C1_witness :
    ∃ s : CoordState,
      drainRun (registerIssue initialState 3
          { type := "bug", complexity := "moderate" } [Agent.database, Agent.frontend]).1
          [Agent.database, Agent.frontend].length none = some s ∧
        s.agentQueue.filter (fun e => e.issueId == issueIdOf 3) = [] ∧
        (lookupA s.activeIssues (issueIdOf 3)).map Issue.status = some "completed" :=
  claim_C1_queue_drain_amended [Agent.database, Agent.frontend] 3
    { type := "bug", complexity := "moderate" } none (by decide) (by decide) (by decide)

/-! ## C5: executing entries per (issueId, agentType) -/

/-- The (issueId, agentType) keys of the work queue. -/
def queuePairs (s : CoordState) : List (String × Agent) :=
  s.agentQueue.map (fun e => (e.issueId, e.agentType))

/-- The scan of `getNextAgent` only flips one entry's status: the queue's
(issueId, agentType) keys are unchanged. -/
theorem getNextAgentAux_pairs (st : CoordState) :
    ∀ (q q' : List QueueItem) (it : QueueItem) (iss : Issue),
      getNextAgentAux st q = some (q', it, iss) →
      q'.map (fun e => (e.issueId, e.agentType)) = q.map (fun e => (e.issueId, e.agentType)) := by
  intro q
  induction q with
  | nil =>
    intro q' it iss h
    simp [getNextAgentAux] at h
  | cons e rest ih =>
    intro q' it iss h
    unfold getNextAgentAux at h
    by_cases h1 : (e.status == "queued") = true
    · rw [if_pos h1] at h
      cases hlk : lookupA st.activeIssues e.issueId with
      | some issue =>
        simp only [hlk] at h
        by_cases h2 : canExecuteAgent st e.agentType issue = true
        · rw [if_pos h2] at h
          simp only [Option.some.injEq, Prod.mk.injEq] at h
          obtain ⟨hq, -, -⟩ := h
          rw [← hq]
          simp
        · rw [if_neg h2] at h
          cases haux : getNextAgentAux st rest with
          | some tpl =>
            obtain ⟨rest', it2, iss2⟩ := tpl
            rw [haux] at h
            simp only [Option.some.injEq, Prod.mk.injEq] at h
            obtain ⟨hq, -, -⟩ := h
            rw [← hq]
            simp [ih rest' it2 iss2 haux]
          | none =>
            rw [haux] at h
            cases h
      | none =>
        simp only [hlk] at h
        cases haux : getNextAgentAux st rest with
        | some tpl =>
          obtain ⟨rest', it2, iss2⟩ := tpl
          rw [haux] at h
          simp only [Option.some.injEq, Prod.mk.injEq] at h
          obtain ⟨hq, -, -⟩ := h
          rw [← hq]
          simp [ih rest' it2 iss2 haux]
        | none =>
          rw [haux] at h
          cases h
    · rw [if_neg h1] at h
      cases haux : getNextAgentAux st rest with
      | some tpl =>
        obtain ⟨rest', it2, iss2⟩ := tpl
        rw [haux] at h
        simp only [Option.some.injEq, Prod.mk.injEq] at h
        obtain ⟨hq, -, -⟩ := h
        rw [← hq]
        simp [ih rest' it2 iss2 haux]
      | none =>
        rw [haux] at h
        cases h

/-- `getNextAgent` preserves the queue's (issueId, agentType) keys. -/
theorem getNextAgent_pairs (st : CoordState) :
    (getNextAgent st).1.agentQueue.map (fun e => (e.issueId, e.agentType))
      = st.agentQueue.map (fun e => (e.issueId, e.agentType)) := by
  unfold getNextAgent
  cases haux : getNextAgentAux st st.agentQueue with
  | none => rfl
  | some tpl =>
    obtain ⟨q', it, iss⟩ := tpl
    simp only []
    exact getNextAgentAux_pairs st st.agentQueue q' it iss haux

/-- `recordAgentCompletion` only removes queue entries (and its trailing
`getNextAgent` only flips a status), so the queue keys afterwards are a
sublist of the keys before. -/
theorem recordAgentCompletion_pairs_sublist (s : CoordState) (iid : String) (a : Agent)
    (ok : Bool) (r : ResultData) :
    ((recordAgentCompletion s iid a ok r).1.agentQueue.map
        (fun e => (e.issueId, e.agentType))).Sublist
      (s.agentQueue.map (fun e => (e.issueId, e.agentType))) := by
  unfold recordAgentCompletion
  cases hlk : lookupA s.activeIssues iid with
  | none =>
    simp only [hlk]
    exact List.Sublist.refl _
  | some issue =>
    simp only [hlk]
    split
    · exact (List.filter_sublist _).map _
    · rw [getNextAgent_pairs]
      exact (List.filter_sublist _).map _

/-- `registerIssue` appends one queue entry per ordered agent. -/
theorem registerIssue_queue (st : CoordState) (n : Nat) (dat : IssueData)
    (roles : List Agent) :
    (registerIssue st n dat roles).1.agentQueue
      = st.agentQueue ++ (determineAgentOrder roles dat).map
          (fun a => { issueId := issueIdOf n, agentType := a, status := "queued" }) := rfl

/-- Coordination states reachable from the fresh state by coordinator
operations, restricted as the amended C5 requires: `registerIssue` is only
used with a duplicate-free role list and an issue number whose id has no
queue entries yet, and `handleAgentFailure` is not used (its retry path
violates the claimed invariant; see the counterexample). -/
inductive ReachSafe : CoordState → Prop
  | init : ReachSafe initialState
  | register (s : CoordState) (n : Nat) (dat : IssueData) (roles : List Agent)
      (hnodup : roles.Nodup)
      (hfresh : ∀ e ∈ s.agentQueue, e.issueId ≠ issueIdOf n) :
      ReachSafe s → ReachSafe (registerIssue s n dat roles).1
  | getNext (s : CoordState) : ReachSafe s → ReachSafe (getNextAgent s).1
  | complete (s : CoordState) (iid : String) (a : Agent) (ok : Bool) (r : ResultData) :
      ReachSafe s → ReachSafe (recordAgentCompletion s iid a ok r).1
  | acquire (s : CoordState) (a : Agent) (n : Nat) :
      ReachSafe s → ReachSafe (acquireResourceLocks s a n)
  | release (s : CoordState) (a : Agent) (n : Nat) :
      ReachSafe s → ReachSafe (releaseResourceLocks s a n)

/-- Along `ReachSafe` states the queue's (issueId, agentType) keys are
duplicate-free. -/
theorem ReachSafe_queuePairs_nodup (s : CoordState) (h : ReachSafe s) :
    (queuePairs s).Nodup := by
  induction h with
  | init => simp [queuePairs, initialState]
  | register s n dat roles hnodup hfresh hs ih =>
    unfold queuePairs at ih ⊢
    rw [registerIssue_queue, List.map_append]
    refine List.Nodup.append ih ?_ ?_
    · rw [List.map_map]
      exact List.Nodup.map (fun a b hab => congrArg Prod.snd hab)
        (determineAgentOrder_nodup roles dat hnodup)
    · intro p hp1 hp2
      rcases List.mem_map.mp hp1 with ⟨e, he, rfl⟩
      rw [List.map_map] at hp2
      rcases List.mem_map.mp hp2 with ⟨b, -, heq⟩
      exact hfresh e he (congrArg Prod.fst heq.symm)
  | getNext s hs ih =>
    unfold queuePairs at ih ⊢
    rw [getNextAgent_pairs]
    exact ih
  | complete s iid a ok r hs ih =>
    unfold queuePairs at ih ⊢
    exact List.Nodup.sublist (recordAgentCompletion_pairs_sublist s iid a ok r) ih
  | acquire s a n hs ih => exact ih
  | release s a n hs ih => exact ih

/-- In a list whose (issueId, agentType) keys are duplicate-free, any
predicate that pins those keys selects at most one entry. -/
theorem filter_pair_length_le_one (l : List QueueItem)
    (hnd : (l.map (fun e => (e.issueId, e.agentType))).Nodup)
    (p : QueueItem → Bool) (iid : String) (a : Agent)
    (hp : ∀ e, p e = true → (e.issueId, e.agentType) = (iid, a)) :
    (l.filter p).length ≤ 1 := by
  induction l with
  | nil => simp
  | cons e rest ih =>
    rw [List.map_cons, List.nodup_cons] at hnd
    by_cases hpe : p e = true
    · rw [List.filter_cons_of_pos hpe]
      have hrest : rest.filter p = [] := by
        rw [List.filter_eq_nil_iff]
        intro x hx hpx
        have hmem : (x.issueId, x.agentType) ∈ rest.map (fun e => (e.issueId, e.agentType)) :=
          List.mem_map_of_mem _ hx
        rw [hp x hpx, ← hp e hpe] at hmem
        exact hnd.1 hmem
      simp [hrest]
    · rw [List.filter_cons_of_neg hpe]
      exact ih hnd.2

/-- Claim C5 (corrected): in every state reachable from the fresh state by
`registerIssue` (duplicate-free roles, fresh issue number), `getNextAgent`,
`recordAgentCompletion`, `acquireResourceLocks` and `releaseResourceLocks`,
the work queue holds at most one `executing` entry per (issueId, agentType)
pair — indeed at most one entry of any status per pair.  The claim's
original operation set also includes `handleAgentFailure`, whose retry path
pushes a second entry for a pair whose first entry is still `executing`;
see the counterexample. -/
theorem claim_C5_at_most_one_executing_amended (s : CoordState) (h : ReachSafe s)
    (iid : String) (a : Agent) :
    (s.agentQueue.filter (fun e =>
        e.issueId == iid && e.agentType == a && e.status == "executing")).length ≤ 1 := by
  refine filter_pair_length_le_one s.agentQueue (ReachSafe_queuePairs_nodup s h) _ iid a ?_
  intro e he
  simp only [Bool.and_eq_true, beq_iff_eq] at he
  obtain ⟨⟨h1, h2⟩, -⟩ := he
  rw [h1, h2]

/-- The state reached by the claim's own operation set (including
`handleAgentFailure`) that violates the invariant: register issue 1 with
role frontend, dequeue it, fail it with a retryable error (which re-queues
a second (issue-1, frontend) entry while the first stays `executing`), and
dequeue again. -/
def dupExecState : CoordState :=
  (getNextAgent ((handleAgentFailure
    ((getNextAgent (registerIssue initialState 1
      { type := "bug", complexity := "simple" } [Agent.frontend]).1).1)
    (issueIdOf 1) Agent.frontend ("network error")).1)).1

/-- Claim C5 counterexample: `dupExecState` is reached by the claim's
operations from a fresh state, yet its queue has two `executing` entries
for (issue-1, frontend). -/
theorem claim_C5_counterexample :
    (dupExecState.agentQueue.filter (fun e =>
        e.issueId == issueIdOf 1 && e.agentType == Agent.frontend
          && e.status == "executing")).length = 2 := by
  decide

/-- Witness for the amended C5 on a concrete reachable state. -/
theorem claim_C5_witness :
    (((getNextAgent (registerIssue initialState 1
        { type := "bug", complexity := "simple" } [Agent.frontend]).1).1).agentQueue.filter
      (fun e => e.issueId == issueIdOf 1 && e.agentType == Agent.frontend
        && e.status == "executing")).length ≤ 1 :=
  claim_C5_at_most_one_executing_amended _
    (ReachSafe.getNext _ (ReachSafe.register initialState 1
      { type := "bug", complexity := "simple" } [Agent.frontend] (by decide)
      (fun e he => absurd he (List.not_mem_nil e)) ReachSafe.init))
    (issueIdOf 1) Agent.frontend
